import Mathlib

/-!
Shallow embedding of `grpc-typeorm-infrastructure`:
the `BaseService` class (validation, id guard, error normalization, the
search-filter compiler `getSearchFilter`) and the `Metadata` class.

External collaborators (the TypeORM repository backend, the
`class-validator` engine, the `grpc-boom` error constructors) are modelled
by passing their outcomes as explicit arguments, so every Service method
becomes a pure function of those outcomes.
-/

deriving instance DecidableEq for Except

namespace GrpcInfra

/-- A JavaScript `number` argument as the service code observes it:
`undefined` (the code compares `id !== undefined`), `NaN`, or a finite
numeric value (modelled as a rational). -/
inductive JsNumber
  | undef
  | nan
  | num (q : ℚ)
deriving DecidableEq

/-- JS comparison `x > 0`: false for `undefined` and `NaN`. -/
def JsNumber.gtZero : JsNumber → Bool
  | .num q => decide (0 < q)
  | _ => false

/-- JS comparison `x >= 0`: false for `undefined` and `NaN`. -/
def JsNumber.geZero : JsNumber → Bool
  | .num q => decide (0 ≤ q)
  | _ => false

/-- JS global `isNaN`, which coerces: `isNaN(undefined) = true`. -/
def jsIsNaN : JsNumber → Bool
  | .num _ => false
  | _ => true

/-- `BaseService.validId`: `id !== undefined && id > 0`. -/
def validId (id : JsNumber) : Bool :=
  (id ≠ JsNumber.undef) && id.gtZero

/-- `Metadata._internal_repr`: a string-keyed object mapping each key to a
list of values, in insertion order (src/src/metadata.ts). -/
abbrev Metadata := List (String × List String)

/-- `new Metadata()`. -/
def Metadata.empty : Metadata := []

/-- `Metadata.add`: appends `value` to the list stored at `key`, creating
the key (at the end, i.e. in insertion order) when absent. -/
def Metadata.add (m : Metadata) (key value : String) : Metadata :=
  match m with
  | [] => [(key, [value])]
  | (k, vs) :: rest =>
      if k = key then (k, vs ++ [value]) :: rest
      else (k, vs) :: Metadata.add rest key value

/-- `Metadata.get`: the list stored at `key`, or `[]`. -/
def Metadata.get (m : Metadata) (key : String) : List String :=
  match m with
  | [] => []
  | (k, vs) :: rest => if k = key then vs else Metadata.get rest key

/-- `Object.keys(this._internal_repr)`. -/
def Metadata.keys (m : Metadata) : List String := m.map Prod.fst

/-- The three typed (`grpc-boom`) error kinds this layer produces. -/
inductive BoomKind
  | invalidArgument
  | notFound
  | internal
deriving DecidableEq

/-- An error value crossing a `catch` block: either a typed `GrpcBoom`
object (`error.isBoom` is true) carrying kind, message and optional
metadata, or an arbitrary untyped thrown value (carried as its string
rendering, which is all the code ever uses of it). -/
inductive SvcError
  | boom (kind : BoomKind) (message : String) (metadata : Option Metadata)
  | js (value : String)
deriving DecidableEq

/-- `error && error.isBoom` (a `GrpcBoom` object is always truthy). -/
def SvcError.isBoom : SvcError → Bool
  | .boom _ _ _ => true
  | .js _ => false

/-- `GrpcBoom.invalidArgument(message)` / `GrpcBoom.invalidArgument(message, metadata)`. -/
def GrpcBoom.invalidArgument (message : String) (metadata : Option Metadata) : SvcError :=
  SvcError.boom BoomKind.invalidArgument message metadata

/-- `GrpcBoom.notFound(message)`. -/
def GrpcBoom.notFound (message : String) : SvcError :=
  SvcError.boom BoomKind.notFound message none

/-- `GrpcBoom.internal(error)`: wraps the (stringified) untyped value. -/
def GrpcBoom.internal (message : String) : SvcError :=
  SvcError.boom BoomKind.internal message none

/-- The body of every `catch (error)` block in `BaseService`:
`if (error && error.isBoom) throw error; throw GrpcBoom.internal(error)`. -/
def normalizeError : SvcError → SvcError
  | .boom k m md => .boom k m md
  | .js s => GrpcBoom.internal s

/-- A `try { ... } catch (error) { if (error.isBoom) throw error; throw
GrpcBoom.internal(error) }` wrapper around an outcome. -/
def wrap {α : Type} : Except SvcError α → Except SvcError α
  | .ok a => .ok a
  | .error e => .error (normalizeError e)

/-- A search term `{field: string, operator?: string, value: string}`
(src/models/internal/search-term.internal). An absent or empty-string
operator is falsy in JS, so `operator` is an `Option String`. -/
structure SearchTerm where
  field : String
  operator : Option String
  value : String
deriving DecidableEq

/-- Modelled from the spec: `SearchTerm.newSearchTerm` (the SearchTerm
model file is not under src/) constructs a SearchTerm from the supplied
`{field, operator?, value}` triple; the spec's data model gives SearchTerm
no further structure, so this is the identity copy. -/
def SearchTerm.newSearchTerm (searchTerm : SearchTerm) : SearchTerm :=
  { field := searchTerm.field
    operator := searchTerm.operator
    value := searchTerm.value }

/-- The compiled predicate `{where, andWhere, limit}`
(`ISearchQueryBuilderOptions`). The `where` field is named after the
source's local variable `whereClause` (`where` is reserved in Lean). -/
structure ISearchQueryBuilderOptions where
  whereClause : String
  andWhere : List String
  limit : JsNumber
deriving DecidableEq

/-- JS `String.prototype.startsWith(prefixString)`, modelled over the
string's character sequence. -/
def jsStartsWith (s p : String) : Bool := p.data.isPrefixOf s.data

/-- JS `String.prototype.endsWith(suffixString)`, modelled over the
string's character sequence. -/
def jsEndsWith (s suffix : String) : Bool := suffix.data.isSuffixOf s.data

/-- `term.operator ? term.operator : ' = '` — note the default is the
three-character string `' = '`, spaces included. -/
def operatorOrDefault : Option String → String
  | none => " = "
  | some s => if s = "" then " = " else s

/-- One iteration body of the `getSearchFilter` loop: builds the clause
string `` `${term.field} ${term.operator ? term.operator : ' = '} ${value}` ``
where `value` is the raw value when it starts with `(` and ends with `)`,
and the single-quoted value otherwise. -/
def clauseOf (searchTerm : SearchTerm) : String :=
  let term := SearchTerm.newSearchTerm searchTerm
  let quoteValue : Bool :=
    !(jsStartsWith searchTerm.value "(" && jsEndsWith searchTerm.value ")")
  let value := if quoteValue then "'" ++ term.value ++ "'" else term.value
  term.field ++ " " ++ operatorOrDefault term.operator ++ " " ++ value

/-- The `for (const searchTerm of searchTerms)` loop of `getSearchFilter`,
threading the mutable `whereClause` / `andWhereClause` accumulators: the
clause goes into `whereClause` while that is still empty
(`!whereClause || whereClause === ''`), and is pushed onto
`andWhereClause` afterwards. -/
def getSearchFilterLoop :
    List SearchTerm → String → List String → String × List String
  | [], whereClause, andWhereClause => (whereClause, andWhereClause)
  | searchTerm :: rest, whereClause, andWhereClause =>
      let c := clauseOf searchTerm
      if whereClause = "" then getSearchFilterLoop rest c andWhereClause
      else getSearchFilterLoop rest whereClause (andWhereClause ++ [c])

/-- `BaseService.getSearchFilter(limit, searchTerms)`. The `searchTerms`
argument is an `Option` because the guard `searchTerms && searchTerms.length > 0`
also handles an undefined array. Throws `InvalidArgument` unless
`limit >= 0` and the array is present and non-empty. -/
def getSearchFilter (limit : JsNumber) (searchTerms : Option (List SearchTerm)) :
    Except SvcError ISearchQueryBuilderOptions :=
  match searchTerms with
  | some terms =>
      if limit.geZero && decide (terms.length > 0) then
        let acc := getSearchFilterLoop terms "" []
        .ok { whereClause := acc.1, andWhere := acc.2, limit := limit }
      else
        .error (GrpcBoom.invalidArgument "Incorrect / invalid parameters supplied" none)
  | none =>
      .error (GrpcBoom.invalidArgument "Incorrect / invalid parameters supplied" none)

/-- One failure item returned by the validation engine: the spec's
validation boundary is "a list of `{property, constraints}` failures".
`property` is a string (falsy when empty); `constraints` is an optional
object whose values are iterated in insertion order, modelled as an
association list. -/
structure ValidationError where
  property : String
  constraints : Option (List (String × String))
deriving DecidableEq

/-- The inner loop of `isValid`: `value = 'Unknown error'`, overwritten by
the first of `Object.values(item.constraints)` when one exists. -/
def firstConstraintValue : List (String × String) → String
  | [] => "Unknown error"
  | (_, v) :: _ => v

/-- One iteration of the metadata-building loop of `isValid`: an error
with a truthy `property` and truthy `constraints` (`if (item.property &&
item.constraints)`) adds the first constraint message under the property
key; any other error is skipped. -/
def validationStep (metadata : Metadata) (item : ValidationError) : Metadata :=
  if item.property ≠ "" ∧ item.constraints.isSome then
    metadata.add item.property (firstConstraintValue (item.constraints.getD []))
  else metadata

/-- The metadata-building loop of `isValid` over all returned errors. -/
def buildValidationMetadata (errors : List ValidationError) : Metadata :=
  errors.foldl validationStep Metadata.empty

/-- `BaseService.isValid(entity)`, as a function of the outcome of
`validate(entity, ...)`: either the list of `ValidationError`s, or the
untyped exception the engine threw (carried as its string rendering — the
engine is an external library and never throws a `GrpcBoom`). A non-empty
list throws `InvalidArgument` carrying the collected metadata, which the
method's own catch rethrows unchanged (it isBoom); an engine exception is
not boom, so the catch wraps it as
`InvalidArgument('Unable to validate request: ' + error)`. -/
def isValid (validateOutcome : Except String (List ValidationError)) :
    Except SvcError Bool :=
  match validateOutcome with
  | .ok errors =>
      if decide (errors.length > 0) then
        .error (GrpcBoom.invalidArgument "Validation failed on the provided request"
          (some (buildValidationMetadata errors)))
      else .ok true
  | .error e =>
      .error (GrpcBoom.invalidArgument ("Unable to validate request: " ++ e) none)

/-!
Service operations. The injected `BaseRepository` is an external
collaborator ("purely a backend-call adapter" per the spec), so each
operation takes the outcome of the repository call(s) it performs as an
explicit `Except SvcError _` argument. Operations that may skip their
repository call additionally return a `Bool` recording whether the
repository was invoked.
-/

variable {T : Type}

/-- `BaseService.findAll()`: `this.repository.getAll()` under the catch. -/
def findAll (repoGetAll : Except SvcError (List T)) : Except SvcError (List T) :=
  wrap repoGetAll

/-- `BaseService.findAllByFilter(filter)`. -/
def findAllByFilter (repoFindManyByFilter : Except SvcError (List T)) :
    Except SvcError (List T) :=
  wrap repoFindManyByFilter

/-- `BaseService.findOneById(id)`: throws `InvalidArgument` when
`!this.validId(id) || isNaN(id)` (the thrown boom is rethrown unchanged by
the catch), otherwise delegates. The second component records whether
`repository.findOneById` was invoked. -/
def findOneById (id : JsNumber) (repoFindOneById : Except SvcError T) :
    Except SvcError T × Bool :=
  if !(validId id) || jsIsNaN id then
    (wrap (.error (GrpcBoom.invalidArgument "Incorrect / invalid parameters supplied" none)),
      false)
  else
    (wrap repoFindOneById, true)

/-- `BaseService.findOneByFilter(filter)`. -/
def findOneByFilter (repoFindOneByFilter : Except SvcError T) : Except SvcError T :=
  wrap repoFindOneByFilter

/-- `BaseService.findOneWithQueryBuilder(options)`: a truthy repository
result is returned, a falsy (absent) result throws
`GrpcBoom.notFound('The requested object could not be found')`. -/
def findOneWithQueryBuilder (repoResult : Except SvcError (Option T)) :
    Except SvcError T :=
  wrap (match repoResult with
    | .ok (some entityResult) => .ok entityResult
    | .ok none => .error (GrpcBoom.notFound "The requested object could not be found")
    | .error e => .error e)

/-- `BaseService.findManyWithQueryBuilder(options)`. -/
def findManyWithQueryBuilder (repoResult : Except SvcError (List T)) :
    Except SvcError (List T) :=
  wrap repoResult

/-- `BaseService.search(limit, searchTerms)`: compiles the filter with
`getSearchFilter` (whose throw is caught and rethrown unchanged, being a
boom) and delegates to `findManyWithQueryBuilder`. -/
def search (limit : JsNumber) (searchTerms : Option (List SearchTerm))
    (repoResult : Except SvcError (List T)) : Except SvcError (List T) :=
  wrap (match getSearchFilter limit searchTerms with
    | .error e => .error e
    | .ok _filter => findManyWithQueryBuilder repoResult)

/-- `BaseService.save(entity)`: validates via `isValid` then persists. The
second component records whether `repository.save` was invoked. -/
def save (validateOutcome : Except String (List ValidationError))
    (repoSave : Except SvcError T) : Except SvcError T × Bool :=
  match isValid validateOutcome with
  | .error e => (wrap (.error e), false)
  | .ok entityIsValid =>
      if !entityIsValid then
        (wrap (.error (GrpcBoom.invalidArgument "Incorrect / invalid parameters supplied" none)),
          false)
      else (wrap repoSave, true)

/-- The `for (const entity of entities)` validation loop of `saveAll`:
returns the first error thrown, or `none` when every entity validates. -/
def saveAllLoop : List (Except String (List ValidationError)) → Option SvcError
  | [] => none
  | outcome :: rest =>
      match isValid outcome with
      | .error e => some e
      | .ok entityIsValid =>
          if !entityIsValid then
            some (GrpcBoom.invalidArgument "Incorrect / invalid parameters supplied" none)
          else saveAllLoop rest

/-- `BaseService.saveAll(entities)`: validates every entity in order, then
performs the single batch `repository.saveAll`. The second component
records whether `repository.saveAll` was invoked. -/
def saveAll (validateOutcomes : List (Except String (List ValidationError)))
    (repoSaveAll : Except SvcError (List T)) : Except SvcError (List T) × Bool :=
  match saveAllLoop validateOutcomes with
  | some e => (wrap (.error e), false)
  | none => (wrap repoSaveAll, true)

/-- `BaseService.update(entity, id)`: `if (!entityIsValid || !this.validId(id))`
throws `InvalidArgument`, otherwise delegates to `repository.updateOneById`.
The second component records whether the repository was invoked. -/
def update (validateOutcome : Except String (List ValidationError)) (id : JsNumber)
    (repoUpdateOneById : Except SvcError T) : Except SvcError T × Bool :=
  match isValid validateOutcome with
  | .error e => (wrap (.error e), false)
  | .ok entityIsValid =>
      if !entityIsValid || !(validId id) then
        (wrap (.error (GrpcBoom.invalidArgument "Incorrect / invalid parameters supplied" none)),
          false)
      else (wrap repoUpdateOneById, true)

/-- `BaseService.delete(id)`: validates the id, fetches the entity via
`repository.findOneById`, calls `repository.delete`, and returns the
pre-deletion snapshot. -/
def delete (id : JsNumber) (repoFindOneById : Except SvcError T)
    (repoDelete : Except SvcError Unit) : Except SvcError T :=
  wrap (if !(validId id) then
      .error (GrpcBoom.invalidArgument "Incorrect / invalid parameters supplied" none)
    else
      match repoFindOneById with
      | .error e => .error e
      | .ok entityResult =>
          match repoDelete with
          | .error e => .error e
          | .ok _ => .ok entityResult)

/-! ### Helper lemmas -/

theorem clauseOf_eq (t : SearchTerm) :
    clauseOf t = t.field ++ " " ++ operatorOrDefault t.operator ++ " " ++
      (if (jsStartsWith t.value "(" && jsEndsWith t.value ")") = true then t.value
        else "'" ++ t.value ++ "'") := by
  by_cases h : (jsStartsWith t.value "(" && jsEndsWith t.value ")") = true
  · simp [clauseOf, SearchTerm.newSearchTerm, h]
  · simp [clauseOf, SearchTerm.newSearchTerm, h]

theorem clauseOf_ne_empty (t : SearchTerm) : clauseOf t ≠ "" := by
  intro he
  have hlen := congrArg String.length he
  rw [clauseOf_eq] at hlen
  simp only [String.length_append] at hlen
  have h1 : (" " : String).length = 1 := rfl
  have h0 : ("" : String).length = 0 := rfl
  rw [h1, h0] at hlen
  omega

theorem getSearchFilterLoop_of_ne_empty (ts : List SearchTerm) :
    ∀ (w : String) (aw : List String), w ≠ "" →
      getSearchFilterLoop ts w aw = (w, aw ++ ts.map clauseOf) := by
  induction ts with
  | nil => intro w aw _; simp [getSearchFilterLoop]
  | cons t rest ih =>
      intro w aw hw
      simp only [getSearchFilterLoop, List.map]
      rw [if_neg hw, ih _ _ hw]
      simp

theorem getSearchFilter_cons (q : ℚ) (hq : 0 ≤ q) (t : SearchTerm)
    (rest : List SearchTerm) :
    getSearchFilter (.num q) (some (t :: rest)) =
      .ok ⟨clauseOf t, rest.map clauseOf, .num q⟩ := by
  have hge : (JsNumber.num q).geZero = true := by
    simp [JsNumber.geZero, hq]
  simp only [getSearchFilter, hge, List.length_cons, Bool.true_and]
  have hloop : getSearchFilterLoop (t :: rest) "" [] =
      (clauseOf t, rest.map clauseOf) := by
    simp only [getSearchFilterLoop, if_pos rfl]
    rw [getSearchFilterLoop_of_ne_empty rest (clauseOf t) [] (clauseOf_ne_empty t)]
    simp
  simp [hloop]

/-! ### Claims about the search-filter compiler -/

/-- **C1** (counterexample): the spec's example
`getSearchFilter(10, [{field:"age", value:"18"}, {field:"name", value:"'bob'"}])`
does not produce `where = "age = '18'"` and `andWhere = ["name = ''bob''"]`:
the default operator is the three-character string `' = '`, so the produced
clauses carry two spaces on each side of the `=`. -/
theorem getSearchFilter_default_operator_cex :
    getSearchFilter (.num 10) (some [⟨"age", none, "18"⟩, ⟨"name", none, "'bob'"⟩]) ≠
      .ok ⟨"age = '18'", ["name = ''bob''"], .num 10⟩ ∧
    getSearchFilter (.num 10) (some [⟨"age", none, "18"⟩, ⟨"name", none, "'bob'"⟩]) =
      .ok ⟨"age  =  '18'", ["name  =  ''bob''"], .num 10⟩ ∧
    ("age  =  '18'" : String) ≠ "age = '18'" := by
  refine ⟨by decide, by decide, by decide⟩

/-- **C1** (amended): every clause compiled by `getSearchFilter` is the
term's field, one space, the interpolated operator, one space, and the
(possibly quoted) value — where the interpolated operator is the term's
operator when present and non-empty, and otherwise the three-character
default `' = '` (so a defaulted clause carries two spaces on each side of
`=`); in particular the spec's two-term example yields
`where = "age  =  '18'"` and `andWhere = ["name  =  ''bob''"]`, the
already-quoted caller value double-quoted and not escaped. -/
theorem clause_format (t : SearchTerm) :
    clauseOf t = t.field ++ " " ++ operatorOrDefault t.operator ++ " " ++
        (if (jsStartsWith t.value "(" && jsEndsWith t.value ")") = true then t.value
          else "'" ++ t.value ++ "'") ∧
    (∀ op : String, t.operator = some op → op ≠ "" → operatorOrDefault t.operator = op) ∧
    (t.operator = none → operatorOrDefault t.operator = " = ") ∧
    getSearchFilter (.num 10) (some [⟨"age", none, "18"⟩, ⟨"name", none, "'bob'"⟩]) =
      .ok ⟨"age  =  '18'", ["name  =  ''bob''"], .num 10⟩ := by
  refine ⟨clauseOf_eq t, ?_, ?_, by decide⟩
  · intro op hop hne
    simp [operatorOrDefault, hop, hne]
  · intro hop
    simp [operatorOrDefault, hop]

/-- Witness for `clause_format` at concrete inputs. -/
theorem clause_format_witness :
    operatorOrDefault (some ">") = ">" ∧ operatorOrDefault none = " = " :=
  ⟨(clause_format ⟨"age", some ">", "18"⟩).2.1 ">" rfl (by decide),
    (clause_format ⟨"age", none, "18"⟩).2.2.1 rfl⟩

/-- **C2**: `getSearchFilter` fails with `InvalidArgument` on an empty or
absent term sequence and on a negative limit, and returns a filter record
only when `limit >= 0` and the sequence is present and non-empty. -/
theorem getSearchFilter_preconditions (limit : JsNumber)
    (terms : Option (List SearchTerm)) (ts : List SearchTerm) (q : ℚ) :
    getSearchFilter limit (some []) =
      .error (GrpcBoom.invalidArgument "Incorrect / invalid parameters supplied" none) ∧
    getSearchFilter limit none =
      .error (GrpcBoom.invalidArgument "Incorrect / invalid parameters supplied" none) ∧
    (q < 0 → getSearchFilter (.num q) terms =
      .error (GrpcBoom.invalidArgument "Incorrect / invalid parameters supplied" none)) ∧
    (∀ o, getSearchFilter limit terms = .ok o →
      limit.geZero = true ∧ ∃ l, terms = some l ∧ 0 < l.length) ∧
    (limit.geZero = true → 0 < ts.length →
      ∃ o, getSearchFilter limit (some ts) = .ok o) := by
  refine ⟨?_, ?_, ?_, ?_, ?_⟩
  · cases limit <;> simp [getSearchFilter, JsNumber.geZero]
  · simp [getSearchFilter]
  · intro hq
    have hge : (JsNumber.num q).geZero = false := by
      simp [JsNumber.geZero, not_le.mpr hq]
    cases terms with
    | none => simp [getSearchFilter]
    | some l => simp [getSearchFilter, hge]
  · intro o ho
    cases terms with
    | none => simp [getSearchFilter] at ho
    | some l =>
        simp only [getSearchFilter] at ho
        by_cases hc : (limit.geZero && decide (l.length > 0)) = true
        · rw [if_pos hc] at ho
          simp only [Bool.and_eq_true, decide_eq_true_eq] at hc
          exact ⟨hc.1, l, rfl, hc.2⟩
        · rw [if_neg hc] at ho
          exact absurd ho (by simp)
  · intro hge hlen
    refine ⟨⟨(getSearchFilterLoop ts "" []).1, (getSearchFilterLoop ts "" []).2, limit⟩, ?_⟩
    simp only [getSearchFilter, hge, Bool.true_and]
    rw [if_pos (by simpa using hlen)]

/-- Witness for `getSearchFilter_preconditions` at concrete inputs. -/
theorem getSearchFilter_preconditions_witness :
    getSearchFilter (.num (-1)) (some [⟨"age", none, "18"⟩]) =
      .error (GrpcBoom.invalidArgument "Incorrect / invalid parameters supplied" none) ∧
    ∃ o, getSearchFilter (.num 10) (some [⟨"age", none, "18"⟩]) = .ok o :=
  ⟨(getSearchFilter_preconditions (.num (-1)) (some [⟨"age", none, "18"⟩])
      [⟨"age", none, "18"⟩] (-1)).2.2.1 (by norm_num),
    (getSearchFilter_preconditions (.num 10) (some [⟨"age", none, "18"⟩])
      [⟨"age", none, "18"⟩] (-1)).2.2.2.2 (by decide) (by decide)⟩

/-- **C3**: a term's value is interpolated verbatim (unquoted) into its
clause exactly when the value string both starts with `(` and ends with
`)`; every other value is wrapped in single quotes with the original value
appearing verbatim (unescaped) between them. -/
theorem value_quoting (t : SearchTerm) :
    ((jsStartsWith t.value "(" && jsEndsWith t.value ")") = true →
      clauseOf t = t.field ++ " " ++ operatorOrDefault t.operator ++ " " ++ t.value) ∧
    ((jsStartsWith t.value "(" && jsEndsWith t.value ")") = false →
      clauseOf t = t.field ++ " " ++ operatorOrDefault t.operator ++ " " ++
        ("'" ++ t.value ++ "'")) ∧
    ((jsStartsWith t.value "(" && jsEndsWith t.value ")") = true ↔
      (∃ r, t.value.data = '(' :: r) ∧ (∃ r, t.value.data = r ++ [')'])) := by
  refine ⟨?_, ?_, ?_⟩
  · intro h; rw [clauseOf_eq, if_pos h]
  · intro h; rw [clauseOf_eq, if_neg (by simp [h])]
  · simp only [jsStartsWith, jsEndsWith, Bool.and_eq_true,
      List.isPrefixOf_iff_prefix, List.isSuffixOf_iff_suffix]
    constructor
    · rintro ⟨⟨r, hr⟩, ⟨l, hl⟩⟩
      exact ⟨⟨r, hr.symm⟩, ⟨l, hl.symm⟩⟩
    · rintro ⟨⟨r, hr⟩, ⟨l, hl⟩⟩
      exact ⟨⟨r, hr.symm⟩, ⟨l, hl.symm⟩⟩

/-- Witness for `value_quoting` at concrete inputs (one per branch). -/
theorem value_quoting_witness :
    clauseOf ⟨"id", none, "(SELECT 1)"⟩ =
      "id" ++ " " ++ operatorOrDefault none ++ " " ++ "(SELECT 1)" ∧
    clauseOf ⟨"name", none, "'bob'"⟩ =
      "name" ++ " " ++ operatorOrDefault none ++ " " ++ ("'" ++ "'bob'" ++ "'") :=
  ⟨(value_quoting ⟨"id", none, "(SELECT 1)"⟩).1 (by decide),
    (value_quoting ⟨"name", none, "'bob'"⟩).2.1 (by decide)⟩

/-- **C4**: for every `limit >= 0` and non-empty term sequence,
`getSearchFilter` puts the first term's clause into `where`, appends the
subsequent clauses in input order to `andWhere` (which therefore has one
fewer element than the input), and returns the limit unchanged; in
particular the single-term example with an explicit `>` operator yields
`{where: "age > '18'", andWhere: [], limit: 10}`. -/
theorem getSearchFilter_positional (q : ℚ) (t : SearchTerm) (rest : List SearchTerm) :
    (0 ≤ q →
      getSearchFilter (.num q) (some (t :: rest)) =
        .ok ⟨clauseOf t, rest.map clauseOf, .num q⟩ ∧
      (rest.map clauseOf).length = (t :: rest).length - 1) ∧
    getSearchFilter (.num 10) (some [⟨"age", some ">", "18"⟩]) =
      .ok ⟨"age > '18'", [], .num 10⟩ := by
  refine ⟨fun hq => ⟨getSearchFilter_cons q hq t rest, by simp⟩, by decide⟩

/-- Witness for `getSearchFilter_positional` at a concrete input. -/
theorem getSearchFilter_positional_witness :
    getSearchFilter (.num 10)
        (some [⟨"age", none, "18"⟩, ⟨"name", none, "'bob'"⟩]) =
      .ok ⟨clauseOf ⟨"age", none, "18"⟩,
        [⟨"name", none, "'bob'"⟩].map clauseOf, .num 10⟩ :=
  ((getSearchFilter_positional 10 ⟨"age", none, "18"⟩
    [⟨"name", none, "'bob'"⟩]).1 (by norm_num)).1

/-! ### The id guard -/

theorem validId_true_iff (id : JsNumber) :
    validId id = true ↔ ∃ q : ℚ, id = .num q ∧ 0 < q := by
  cases id with
  | undef => simp [validId]
  | nan => simp [validId, JsNumber.gtZero]
  | num r => simp [validId, JsNumber.gtZero]

/-- The claim's stated condition for C7: the id is an integer strictly
greater than 0 (an integer rational is one with denominator 1). -/
def isIntegerGreaterThanZero : JsNumber → Prop
  | .num q => q.den = 1 ∧ 0 < q
  | _ => False

/-- **C7** (counterexample): `validId(0.5)` returns true although `0.5` is
not an integer, so `validId(id)` is not equivalent to "`id` is an integer
strictly greater than 0". -/
theorem validId_not_integer_cex :
    validId (.num (1/2)) = true ∧ ¬ isIntegerGreaterThanZero (.num (1/2)) := by
  constructor
  · simp [validId, JsNumber.gtZero]
  · rintro ⟨hden, -⟩
    have h2 : ((1 : ℚ)/2).den = 2 := by norm_num
    rw [h2] at hden
    exact absurd hden (by norm_num)

/-- **C7** (amended): `validId(id)` returns true iff `id` is a defined,
non-NaN numeric value strictly greater than 0 — integrality is not
checked; in particular it returns false for undefined, NaN, 0 and
negative ids. -/
theorem validId_characterization (id : JsNumber) (q : ℚ) :
    (validId id = true ↔ ∃ r : ℚ, id = .num r ∧ 0 < r) ∧
    validId .undef = false ∧
    validId .nan = false ∧
    validId (.num 0) = false ∧
    (q < 0 → validId (.num q) = false) := by
  refine ⟨validId_true_iff id, by decide, by decide, by decide, fun hq => ?_⟩
  simp [validId, JsNumber.gtZero, not_lt.mpr hq.le]

/-- Witness for `validId_characterization` at concrete inputs. -/
theorem validId_characterization_witness :
    validId (.num (-1)) = false ∧ validId (.num 3) = true :=
  ⟨(validId_characterization (.num 3) (-1)).2.2.2.2 (by norm_num),
    (validId_characterization (.num 3) 0).1.mpr ⟨3, rfl, by norm_num⟩⟩

/-! ### Validation metadata -/

/-- The `(key, [message])` entry contributed by one validation error. -/
def validationEntry (e : ValidationError) : String × List String :=
  (e.property, [firstConstraintValue (e.constraints.getD [])])

theorem Metadata.add_of_not_mem (m : Metadata) (key value : String)
    (h : key ∉ m.keys) : m.add key value = m ++ [(key, [value])] := by
  induction m with
  | nil => rfl
  | cons p rest ih =>
      obtain ⟨k, vs⟩ := p
      simp only [Metadata.keys, List.map_cons, List.mem_cons] at h
      push_neg at h
      simp only [Metadata.add]
      rw [if_neg (fun hk => h.1 hk.symm)]
      rw [ih (by simpa [Metadata.keys] using h.2)]
      simp

theorem foldl_validationStep (errors : List ValidationError) :
    ∀ m : Metadata,
      (∀ e ∈ errors, e.property ≠ "" ∧ e.constraints.isSome = true) →
      (∀ e ∈ errors, e.property ∉ m.keys) →
      (errors.map ValidationError.property).Nodup →
      errors.foldl validationStep m = m ++ errors.map validationEntry := by
  induction errors with
  | nil => intro m _ _ _; simp
  | cons a rest ih =>
      intro m hprop hmem hnodup
      rw [List.map_cons] at hnodup
      obtain ⟨hhead, htail⟩ := List.nodup_cons.mp hnodup
      have ha := hprop a (by simp)
      have hstep : validationStep m a = m ++ [validationEntry a] := by
        simp only [validationStep, validationEntry]
        rw [if_pos ⟨ha.1, by simp [ha.2]⟩]
        rw [Metadata.add_of_not_mem m _ _ (hmem a (by simp))]
      simp only [List.foldl_cons, List.map_cons, hstep]
      rw [ih (m ++ [validationEntry a])
        (fun e he => hprop e (by simp [he])) ?_ htail]
      · simp
      · intro e he
        simp only [Metadata.keys, List.map_append] at *
        intro hk
        rcases List.mem_append.mp hk with hk1 | hk2
        · exact hmem e (by simp [he]) (by simpa [Metadata.keys] using hk1)
        · have hne : a.property ≠ e.property := by
            intro hh
            exact hhead (hh ▸ List.mem_map_of_mem ValidationError.property he)
          simp [validationEntry] at hk2
          exact hne hk2.symm

theorem Metadata.get_validationEntries (errors : List ValidationError)
    (hnodup : (errors.map ValidationError.property).Nodup) :
    ∀ e ∈ errors, Metadata.get (errors.map validationEntry) e.property =
      [firstConstraintValue (e.constraints.getD [])] := by
  induction errors with
  | nil => simp
  | cons a rest ih =>
      rw [List.map_cons] at hnodup
      obtain ⟨hhead, htail⟩ := List.nodup_cons.mp hnodup
      intro e he
      rcases List.mem_cons.mp he with rfl | hmem
      · simp [Metadata.get, validationEntry]
      · have hne : a.property ≠ e.property := by
          intro hh
          exact hhead (hh ▸ List.mem_map_of_mem ValidationError.property hmem)
        simp only [List.map_cons, Metadata.get, validationEntry]
        rw [if_neg hne]
        exact ih htail e hmem

/-- **C8**: an entity failing validation on N fields (one ValidationError
per failing field, each with a truthy property and a constraints object)
makes `isValid` throw `InvalidArgument` whose Metadata has exactly N keys,
each mapped to the single first-registered constraint message of that
field; an entity with no failing constraints yields true; and an engine
exception is wrapped as `InvalidArgument` with the generic message. -/
theorem isValid_validation_failures (errors : List ValidationError) (s : String)
    (hprop : ∀ e ∈ errors, e.property ≠ "" ∧ e.constraints.isSome = true)
    (hnodup : (errors.map ValidationError.property).Nodup)
    (hne : errors ≠ []) :
    isValid (.ok errors) =
      .error (GrpcBoom.invalidArgument "Validation failed on the provided request"
        (some (errors.map validationEntry))) ∧
    (buildValidationMetadata errors).keys.length = errors.length ∧
    (∀ e ∈ errors, (buildValidationMetadata errors).get e.property =
      [firstConstraintValue (e.constraints.getD [])]) ∧
    isValid (.ok []) = .ok true ∧
    isValid (.error s) =
      .error (GrpcBoom.invalidArgument ("Unable to validate request: " ++ s) none) := by
  have hbuild : buildValidationMetadata errors = errors.map validationEntry :=
    foldl_validationStep errors Metadata.empty hprop
      (by intro e _; simp [Metadata.empty, Metadata.keys]) hnodup
  refine ⟨?_, ?_, ?_, by simp [isValid], by simp [isValid]⟩
  · have hlen : 0 < errors.length := List.length_pos.mpr hne
    simp [isValid, hlen, hbuild]
  · rw [hbuild]
    simp [Metadata.keys, validationEntry]
  · intro e he
    rw [hbuild]
    exact Metadata.get_validationEntries errors hnodup e he

/-- Witness for `isValid_validation_failures` at a concrete two-field
failure (the second error exercises the `'Unknown error'` default). -/
theorem isValid_validation_failures_witness :
    isValid (.ok [⟨"a", some [("c1", "m1"), ("c2", "m2")]⟩, ⟨"b", some []⟩]) =
      .error (GrpcBoom.invalidArgument "Validation failed on the provided request"
        (some [("a", ["m1"]), ("b", ["Unknown error"])])) := by
  have h := (isValid_validation_failures
    [⟨"a", some [("c1", "m1"), ("c2", "m2")]⟩, ⟨"b", some []⟩] "x"
    (by decide) (by decide) (by decide)).1
  have hmap : ([⟨"a", some [("c1", "m1"), ("c2", "m2")]⟩, ⟨"b", some []⟩] :
      List ValidationError).map validationEntry =
      [("a", ["m1"]), ("b", ["Unknown error"])] := by decide
  rw [hmap] at h
  exact h

/-! ### The saveAll validation gate and the findOneById guard -/

theorem isValid_eq_ok_iff (v : Except String (List ValidationError)) :
    isValid v = .ok true ↔ v = .ok [] := by
  cases v with
  | ok errors => cases errors <;> simp [isValid]
  | error s => simp [isValid]

theorem isValid_fail_shape (v : Except String (List ValidationError))
    (hv : v ≠ .ok []) :
    ∃ m md, isValid v = .error (.boom .invalidArgument m md) := by
  cases v with
  | ok errors =>
      cases errors with
      | nil => exact absurd rfl hv
      | cons a rest => simp [isValid, GrpcBoom.invalidArgument]
  | error s => simp [isValid, GrpcBoom.invalidArgument]

theorem saveAllLoop_eq_none_iff (vs : List (Except String (List ValidationError))) :
    saveAllLoop vs = none ↔ ∀ v ∈ vs, v = .ok [] := by
  induction vs with
  | nil => simp [saveAllLoop]
  | cons v rest ih =>
      by_cases hv : v = .ok ([] : List ValidationError)
      · subst hv
        simp only [saveAllLoop, isValid]
        simpa using ih
      · obtain ⟨m, md, hm⟩ := isValid_fail_shape v hv
        simp only [saveAllLoop, hm]
        simp only [Option.some_ne_none, false_iff]
        push_neg
        exact ⟨v, by simp, hv⟩

theorem saveAllLoop_some_shape (vs : List (Except String (List ValidationError)))
    (e : SvcError) (h : saveAllLoop vs = some e) :
    ∃ m md, e = .boom .invalidArgument m md := by
  induction vs with
  | nil => simp [saveAllLoop] at h
  | cons v rest ih =>
      by_cases hv : v = .ok ([] : List ValidationError)
      · subst hv
        simp only [saveAllLoop, isValid] at h
        exact ih (by simpa using h)
      · obtain ⟨m, md, hm⟩ := isValid_fail_shape v hv
        simp only [saveAllLoop, hm] at h
        exact ⟨m, md, (Option.some_injective _ h).symm⟩

/-- **C9**: `saveAll` validates every entity, in order, before the batch
persist: when any entity fails validation the call throws
`InvalidArgument` and `repository.saveAll` is never invoked; the persist
happens (and its outcome is returned, normalized) only when every entity
validated. -/
theorem saveAll_validation_gate {T : Type}
    (vs : List (Except String (List ValidationError)))
    (r : Except SvcError (List T)) :
    ((∃ v ∈ vs, v ≠ .ok []) →
      (saveAll vs r).2 = false ∧
      ∃ m md, (saveAll vs r).1 = .error (.boom .invalidArgument m md)) ∧
    ((∀ v ∈ vs, v = .ok []) → saveAll vs r = (wrap r, true)) := by
  constructor
  · rintro ⟨v, hv, hvne⟩
    have hloop : saveAllLoop vs ≠ none := by
      rw [Ne, saveAllLoop_eq_none_iff]
      push_neg
      exact ⟨v, hv, hvne⟩
    obtain ⟨e, he⟩ := Option.ne_none_iff_exists.mp hloop
    obtain ⟨m, md, hm⟩ := saveAllLoop_some_shape vs e he.symm
    subst hm
    simp [saveAll, ← he, wrap, normalizeError]
  · intro hall
    have hloop : saveAllLoop vs = none := (saveAllLoop_eq_none_iff vs).mpr hall
    simp [saveAll, hloop]

/-- Witness for `saveAll_validation_gate` at concrete inputs: one failing
batch (repository untouched) and one fully-valid batch (persisted). -/
theorem saveAll_validation_gate_witness :
    ((saveAll (T := Nat) [.ok [], .error "engine down"] (.ok [1])).2 = false ∧
      ∃ m md, (saveAll (T := Nat) [.ok [], .error "engine down"] (.ok [1])).1 =
        .error (.boom .invalidArgument m md)) ∧
    saveAll (T := Nat) [.ok [], .ok []] (.ok [1]) = (wrap (.ok [1]), true) :=
  ⟨(saveAll_validation_gate [.ok [], .error "engine down"] (.ok [1])).1
      ⟨.error "engine down", by simp, by simp⟩,
    (saveAll_validation_gate [.ok [], .ok []] (.ok [1])).2 (by simp)⟩

/-- **C10**: `findOneById` throws `InvalidArgument` without invoking the
repository exactly when the id is undefined, NaN, or a number not
strictly greater than 0; for every other id the (normalized) repository
outcome is returned. -/
theorem findOneById_guard {T : Type} (id : JsNumber) (r : Except SvcError T) :
    ((validId id = false ∨ jsIsNaN id = true) →
      findOneById id r =
        (.error (.boom .invalidArgument "Incorrect / invalid parameters supplied" none),
          false)) ∧
    (validId id = true → findOneById id r = (wrap r, true)) ∧
    (validId id = false ↔ id = .undef ∨ id = .nan ∨ ∃ q : ℚ, id = .num q ∧ q ≤ 0) := by
  refine ⟨?_, ?_, ?_⟩
  · intro h
    have hguard : (!(validId id) || jsIsNaN id) = true := by
      rcases h with h | h <;> simp [h]
    simp [findOneById, hguard, wrap, normalizeError, GrpcBoom.invalidArgument]
  · intro h
    obtain ⟨q, rfl, hq⟩ := (validId_true_iff id).mp h
    simp [findOneById, h, jsIsNaN]
  · cases id with
    | undef => simp [validId]
    | nan => simp [validId, JsNumber.gtZero]
    | num q => simp [validId, JsNumber.gtZero, not_lt]

/-- Witness for `findOneById_guard` at concrete inputs: a NaN id (guard
fires, repository untouched) and a valid id (repository outcome
returned). -/
theorem findOneById_guard_witness :
    findOneById (T := Nat) .nan (.ok 7) =
      (.error (.boom .invalidArgument "Incorrect / invalid parameters supplied" none),
        false) ∧
    findOneById (T := Nat) (.num 3) (.ok 7) = (wrap (.ok 7), true) :=
  ⟨(findOneById_guard .nan (.ok 7)).1 (Or.inr (by decide)),
    (findOneById_guard (.num 3) (.ok 7)).2.1 (by decide)⟩

/-! ### NotFound conversion and the error-normalization contract -/

/-- **C6**: `findOneWithQueryBuilder` throws
`NotFound('The requested object could not be found')` exactly when the
repository call succeeds with an absent result, returns the entity when
one is present, and merely normalizes repository errors; every other read
operation surfaces a successful repository result unchanged (in
particular an absent value is passed through, never converted to
NotFound). -/
theorem findOneWithQueryBuilder_notFound {T : Type} (a : T) (ao : Option T)
    (lo : List (Option T)) (e : SvcError) (id limit : JsNumber)
    (terms : Option (List SearchTerm)) (f : ISearchQueryBuilderOptions) :
    findOneWithQueryBuilder (T := T) (.ok none) =
      .error (.boom .notFound "The requested object could not be found" none) ∧
    findOneWithQueryBuilder (.ok (some a)) = .ok a ∧
    findOneWithQueryBuilder (T := T) (.error e) = .error (normalizeError e) ∧
    findAll (T := Option T) (.ok lo) = .ok lo ∧
    findAllByFilter (T := Option T) (.ok lo) = .ok lo ∧
    findOneByFilter (T := Option T) (.ok ao) = .ok ao ∧
    (validId id = true → findOneById (T := Option T) id (.ok ao) = (.ok ao, true)) ∧
    findManyWithQueryBuilder (T := Option T) (.ok lo) = .ok lo ∧
    (getSearchFilter limit terms = .ok f →
      search (T := Option T) limit terms (.ok lo) = .ok lo) := by
  refine ⟨?_, ?_, ?_, rfl, rfl, rfl, ?_, rfl, ?_⟩
  · simp [findOneWithQueryBuilder, wrap, normalizeError, GrpcBoom.notFound]
  · simp [findOneWithQueryBuilder, wrap]
  · simp [findOneWithQueryBuilder, wrap]
  · intro h
    obtain ⟨q, rfl, hq⟩ := (validId_true_iff id).mp h
    simp [findOneById, h, jsIsNaN, wrap]
  · intro h
    simp [search, h, findManyWithQueryBuilder, wrap]

/-- Witness for `findOneWithQueryBuilder_notFound` at concrete inputs. -/
theorem findOneWithQueryBuilder_notFound_witness :
    findOneById (T := Option Nat) (.num 3) (.ok none) = (.ok none, true) ∧
    search (T := Option Nat) (.num 10) (some [⟨"age", none, "18"⟩]) (.ok [none]) =
      .ok [none] :=
  ⟨(findOneWithQueryBuilder_notFound (T := Nat) 0 none [] (.js "x") (.num 3)
      (.num 10) (some [⟨"age", none, "18"⟩])
      ⟨"age  =  '18'", [], .num 10⟩).2.2.2.2.2.2.1 (by decide),
    (findOneWithQueryBuilder_notFound (T := Nat) 0 none [none] (.js "x") (.num 3)
      (.num 10) (some [⟨"age", none, "18"⟩])
      ⟨"age  =  '18'", [], .num 10⟩).2.2.2.2.2.2.2.2 (by decide)⟩

/-- `true` unless the outcome is an untyped (non-Boom) error. -/
def typedOutcome {α : Type} : Except SvcError α → Bool
  | .error (.js _) => false
  | _ => true

theorem typedOutcome_wrap {α : Type} (r : Except SvcError α) :
    typedOutcome (wrap r) = true := by
  cases r with
  | ok a => rfl
  | error e => cases e <;> rfl

theorem normalizeError_idem (e : SvcError) :
    normalizeError (normalizeError e) = normalizeError e := by
  cases e <;> rfl

/-- **C5**: every public Service operation rethrows a typed (Boom) error
raised by its underlying work unchanged in kind, message and metadata,
wraps any untyped raised value as `Internal`, and consequently never lets
an untyped error cross the Service boundary. -/
theorem service_error_normalization {T : Type}
    (e : SvcError) (k : BoomKind) (msg s : String) (md : Option Metadata)
    (id limit : JsNumber) (terms : Option (List SearchTerm))
    (f : ISearchQueryBuilderOptions)
    (vs : List (Except String (List ValidationError)))
    (vo : Except String (List ValidationError))
    (r : Except SvcError T) (rl : Except SvcError (List T))
    (ro : Except SvcError (Option T)) (t : T) (rd : Except SvcError Unit) :
    normalizeError (.boom k msg md) = .boom k msg md ∧
    normalizeError (.js s) = .boom .internal s none ∧
    findAll (T := T) (.error e) = .error (normalizeError e) ∧
    findAllByFilter (T := T) (.error e) = .error (normalizeError e) ∧
    (validId id = true →
      (findOneById (T := T) id (.error e)).1 = .error (normalizeError e)) ∧
    findOneByFilter (T := T) (.error e) = .error (normalizeError e) ∧
    findOneWithQueryBuilder (T := T) (.error e) = .error (normalizeError e) ∧
    findManyWithQueryBuilder (T := T) (.error e) = .error (normalizeError e) ∧
    (getSearchFilter limit terms = .ok f →
      search (T := T) limit terms (.error e) = .error (normalizeError e)) ∧
    (save (T := T) (.ok []) (.error e)).1 = .error (normalizeError e) ∧
    ((∀ v ∈ vs, v = .ok []) →
      (saveAll (T := T) vs (.error e)).1 = .error (normalizeError e)) ∧
    (validId id = true →
      (update (T := T) (.ok []) id (.error e)).1 = .error (normalizeError e)) ∧
    (validId id = true →
      delete (T := T) id (.error e) rd = .error (normalizeError e)) ∧
    (validId id = true →
      delete (T := T) id (.ok t) (.error e) = .error (normalizeError e)) ∧
    typedOutcome (findAll (T := T) rl) = true ∧
    typedOutcome (findAllByFilter (T := T) rl) = true ∧
    typedOutcome (findOneById (T := T) id r).1 = true ∧
    typedOutcome (findOneByFilter (T := T) r) = true ∧
    typedOutcome (findOneWithQueryBuilder (T := T) ro) = true ∧
    typedOutcome (findManyWithQueryBuilder (T := T) rl) = true ∧
    typedOutcome (search (T := T) limit terms rl) = true ∧
    typedOutcome (save (T := T) vo r).1 = true ∧
    typedOutcome (saveAll (T := T) vs rl).1 = true ∧
    typedOutcome (update (T := T) vo id r).1 = true ∧
    typedOutcome (delete (T := T) id r rd) = true := by
  have hvalid : validId id = true →
      (!(validId id) || jsIsNaN id) = false := by
    intro h
    obtain ⟨q, rfl, hq⟩ := (validId_true_iff id).mp h
    simp [h, jsIsNaN]
  refine ⟨rfl, rfl, rfl, rfl, ?_, rfl, ?_, rfl, ?_, ?_, ?_, ?_, ?_, ?_,
    typedOutcome_wrap rl, typedOutcome_wrap rl, ?_, typedOutcome_wrap r, ?_,
    typedOutcome_wrap rl, typedOutcome_wrap _, ?_, ?_, ?_, typedOutcome_wrap _⟩
  · intro h
    simp [findOneById, hvalid h, wrap]
  · simp [findOneWithQueryBuilder, wrap]
  · intro h
    simp [search, h, findManyWithQueryBuilder, wrap, normalizeError_idem]
  · simp [save, isValid, wrap]
  · intro hall
    have hloop : saveAllLoop vs = none := (saveAllLoop_eq_none_iff vs).mpr hall
    simp [saveAll, hloop, wrap]
  · intro h
    simp [update, isValid, h, wrap]
  · intro h
    simp [delete, h, wrap]
  · intro h
    cases rd with
    | ok u => simp [delete, h, wrap]
    | error ed => simp [delete, h, wrap]
  · rcases Bool.eq_false_or_eq_true (!(validId id) || jsIsNaN id) with hg | hg <;>
      simp [findOneById, hg, typedOutcome_wrap]
  · simp only [findOneWithQueryBuilder]
    exact typedOutcome_wrap _
  · cases hsv : isValid vo with
    | ok b =>
        cases b <;> simp [save, hsv, typedOutcome_wrap]
    | error ev => simp [save, hsv, typedOutcome_wrap]
  · cases hloop : saveAllLoop vs with
    | none => simp [saveAll, hloop, typedOutcome_wrap]
    | some ev => simp [saveAll, hloop, typedOutcome_wrap]
  · cases hsv : isValid vo with
    | ok b =>
        rcases Bool.eq_false_or_eq_true (!b || !(validId id)) with hg | hg <;>
          simp [update, hsv, hg, typedOutcome_wrap]
    | error ev => simp [update, hsv, typedOutcome_wrap]

/-- Witness for `service_error_normalization`: an untyped repository error
(`"kaput"`) surfaces as `Internal` through every guarded operation at
concrete, guard-satisfying inputs. -/
theorem service_error_normalization_witness :
    (findOneById (T := Nat) (.num 3) (.error (.js "kaput"))).1 =
      .error (normalizeError (.js "kaput")) ∧
    search (T := Nat) (.num 10) (some [⟨"age", none, "18"⟩]) (.error (.js "kaput")) =
      .error (normalizeError (.js "kaput")) ∧
    (saveAll (T := Nat) [.ok []] (.error (.js "kaput"))).1 =
      .error (normalizeError (.js "kaput")) ∧
    (update (T := Nat) (.ok []) (.num 3) (.error (.js "kaput"))).1 =
      .error (normalizeError (.js "kaput")) ∧
    delete (T := Nat) (.num 3) (.error (.js "kaput")) (.ok ()) =
      .error (normalizeError (.js "kaput")) ∧
    delete (T := Nat) (.num 3) (.ok 7) (.error (.js "kaput")) =
      .error (normalizeError (.js "kaput")) := by
  obtain ⟨-, -, -, -, h5, -, -, -, h9, -, h11, h12, h13, h14, -⟩ :=
    service_error_normalization (T := Nat) (.js "kaput") .internal "m" "s" none
      (.num 3) (.num 10) (some [⟨"age", none, "18"⟩]) ⟨"age  =  '18'", [], .num 10⟩
      [.ok []] (.ok []) (.ok 7) (.ok []) (.ok none) 7 (.ok ())
  exact ⟨h5 (by decide), h9 (by decide), h11 (by simp), h12 (by decide),
    h13 (by decide), h14 (by decide)⟩

end GrpcInfra
